import Mathlib

/-!
Verification of the VDO volume-manager management plane (python sources under
src/vdo-manager) against its specification.  Each claim from the specification
is settled by a theorem about a shallow embedding of the relevant python code.

Conventions of the embedding:
* machine integers and python ints are `Nat` (all quantities involved are
  non-negative byte counts, thread counts or exit statuses);
* python exceptions are `Except` values or explicit outcome constructors;
* stateful code is modelled by explicit state passing or by returning the
  list of externally visible actions the code performs;
* python `float` round-trips of integer numerals are modelled exactly by
  `doubleRound` (round-half-even to 53 significant bits), which is what
  `locale.atof`/`float` produce for integers below the overflow threshold.
-/

set_option maxRecDepth 8000

namespace VDO

/-! ## Constants (vdomgmnt/Constants.py) -/

/-- Constants.SECTOR_SIZE. -/
def SECTOR_SIZE : Nat := 512

/-- Constants.VDO_BLOCK_SIZE. -/
def VDO_BLOCK_SIZE : Nat := 4096

/-! ## Size strings (vdomgmnt/SizeString.py)

A size string is a numeral followed by an optional unit suffix.  The
embedding works with the pair (numeric value of the numeral, suffix); the
numeral itself is an integer (the only form the manager ever emits, and the
form all claims are about). -/

/-- The unit suffixes recognised by `SizeString.__init__`
(Constants.lvmSuffixes: the sector suffix plus the SI suffixes). -/
inductive SizeSuffix where
  | sector
  | bytes
  | kilo
  | mega
  | giga
  | tera
  | peta
  | exa
  deriving DecidableEq

/-- Constants.lvmSuffixSizeMap: bytes denoted by each suffix
(powers of 1024, and 512 for the sector suffix). -/
def suffixSize : SizeSuffix → Nat
  | .sector => 512
  | .bytes => 1
  | .kilo => 2 ^ 10
  | .mega => 2 ^ 20
  | .giga => 2 ^ 30
  | .tera => 2 ^ 40
  | .peta => 2 ^ 50
  | .exa => 2 ^ 60

/-- The uppercase letter `SizeString.asLvmText` appends
(`str(size) + suffix.upper()`). -/
def suffixLetter : SizeSuffix → String
  | .sector => "S"
  | .bytes => "B"
  | .kilo => "K"
  | .mega => "M"
  | .giga => "G"
  | .tera => "T"
  | .peta => "P"
  | .exa => "E"

/-- Smallest shift `k` such that `n / 2 ^ k` fits in 53 bits (the significand
width of an IEEE double).  The search bound 972 covers every integer below
the double overflow threshold `2 ^ 1024`. -/
def sigShift (n : Nat) : Nat :=
  (((List.range 972).find? fun k => n / 2 ^ k < 2 ^ 53).getD 0)

/-- Value of python `float(s)` (equivalently `locale.atof(s)`) for the
integer numeral `s` of `n`: `n` itself when it fits in 53 significand bits,
otherwise `n` rounded to the nearest multiple of `2 ^ (bits - 53)` with ties
to even.  `SizeString.__init__` funnels every parsed numeral through this
conversion. -/
def doubleRound (n : Nat) : Nat :=
  if n < 2 ^ 53 then n
  else
    let k := sigShift n
    let q := n / 2 ^ k
    let r := n % 2 ^ k
    let half := 2 ^ (k - 1)
    if r < half then q * 2 ^ k
    else if half < r then (q + 1) * 2 ^ k
    else if q % 2 = 0 then q * 2 ^ k else (q + 1) * 2 ^ k

/-- SizeString.__init__ on a size string made of the integer numeral of `n`
followed by `suffix` (`none` models a bare numeral, which defaults to the
mega suffix, Constants.lvmDefaultSuffix).  The numeral is parsed by
`locale.atof`/`float` (hence `doubleRound`) and then multiplied by the
suffix size; multiplying a double by a power of two and truncating the
integral result back to int are exact. -/
def sizeStringOfParts (n : Nat) (suffix : Option SizeSuffix) : Nat :=
  doubleRound n * suffixSize (suffix.getD .mega)

/-- SizeString.__add__ adds the exact integer byte counts (no float involved). -/
def sizeStringAdd (a b : Nat) : Nat := a + b

/-- SizeString.roundToBlock: round a byte count down to a multiple of the
4096-byte block (`toBlocks` rounds down, then multiplies back). -/
def roundToBlock (b : Nat) : Nat := b / VDO_BLOCK_SIZE * VDO_BLOCK_SIZE

/-- SizeString.toSectors: convert to 512-byte sectors, rounding up. -/
def toSectors (b : Nat) : Nat := (b + (SECTOR_SIZE - 1)) / SECTOR_SIZE

/-- SizeString.asLvmText, as the pair (numeral value, suffix): walk the SI
suffixes from largest to smallest and take the first whose size divides the
byte count (the bytes suffix, of size 1, always divides, so the loop's
fallback branch is unreachable for positive sizes); a zero byte count keeps
the default mega suffix, giving the text 0M. -/
def asLvmTextParts (b : Nat) : Nat × SizeSuffix :=
  if 0 < b then
    if b % 2 ^ 60 = 0 then (b / 2 ^ 60, .exa)
    else if b % 2 ^ 50 = 0 then (b / 2 ^ 50, .peta)
    else if b % 2 ^ 40 = 0 then (b / 2 ^ 40, .tera)
    else if b % 2 ^ 30 = 0 then (b / 2 ^ 30, .giga)
    else if b % 2 ^ 20 = 0 then (b / 2 ^ 20, .mega)
    else if b % 2 ^ 10 = 0 then (b / 2 ^ 10, .kilo)
    else (b, .bytes)
  else (0, .mega)

/-- SizeString.asLvmText rendered as the actual string. -/
def asLvmText (b : Nat) : String :=
  toString (asLvmTextParts b).1 ++ suffixLetter (asLvmTextParts b).2

theorem doubleRound_eq_of_le {n : Nat} (h : n ≤ 2 ^ 53) : doubleRound n = n := by
  rcases Nat.lt_or_ge n (2 ^ 53) with hlt | hge
  · unfold doubleRound
    rw [if_pos hlt]
  · have heq : n = 2 ^ 53 := Nat.le_antisymm h hge
    subst heq
    decide

theorem roundToBlock_le (b : Nat) : roundToBlock b ≤ b :=
  Nat.div_mul_le_self b VDO_BLOCK_SIZE

theorem dvd_roundToBlock (b : Nat) : VDO_BLOCK_SIZE ∣ roundToBlock b :=
  ⟨b / VDO_BLOCK_SIZE, Nat.mul_comm (b / VDO_BLOCK_SIZE) VDO_BLOCK_SIZE⟩

theorem asLvmTextParts_mul (b : Nat) :
    (asLvmTextParts b).1 * suffixSize (asLvmTextParts b).2 = b := by
  by_cases hb : 0 < b
  · unfold asLvmTextParts
    rw [if_pos hb]
    split_ifs with h60 h50 h40 h30 h20 h10
    · exact Nat.div_mul_cancel (Nat.dvd_of_mod_eq_zero h60)
    · exact Nat.div_mul_cancel (Nat.dvd_of_mod_eq_zero h50)
    · exact Nat.div_mul_cancel (Nat.dvd_of_mod_eq_zero h40)
    · exact Nat.div_mul_cancel (Nat.dvd_of_mod_eq_zero h30)
    · exact Nat.div_mul_cancel (Nat.dvd_of_mod_eq_zero h20)
    · exact Nat.div_mul_cancel (Nat.dvd_of_mod_eq_zero h10)
    · exact Nat.mul_one b
  · have hb0 : b = 0 := Nat.eq_zero_of_not_pos hb
    subst hb0
    rfl

theorem asLvmTextParts_fst_le (b : Nat) : (asLvmTextParts b).1 ≤ b := by
  by_cases hb : 0 < b
  · unfold asLvmTextParts
    rw [if_pos hb]
    split_ifs
    · exact Nat.div_le_self _ _
    · exact Nat.div_le_self _ _
    · exact Nat.div_le_self _ _
    · exact Nat.div_le_self _ _
    · exact Nat.div_le_self _ _
    · exact Nat.div_le_self _ _
    · exact Nat.le_refl _
  · have hb0 : b = 0 := Nat.eq_zero_of_not_pos hb
    subst hb0
    exact Nat.le_refl 0

/-- C8 (amended).  The parse/format round-trip of SizeString holds for every
byte count that python floats represent exactly, in particular every byte
count up to `2 ^ 53`: re-parsing the canonical text of such a SizeString
recovers the same byte count, and formatting the parse of a well-formed
integer size string equals formatting its exact value (parsing is exact in
that range, so the formatted text is canonical).  Above `2 ^ 53` the claim
fails because parsing funnels the numeral through a float
(see the counterexample). -/
theorem sizeString_roundTrip (b n : Nat) (suf : Option SizeSuffix)
    (hb : b ≤ 2 ^ 53) (hn : n ≤ 2 ^ 53) :
    sizeStringOfParts (asLvmTextParts b).1 (some (asLvmTextParts b).2) = b
    ∧ asLvmTextParts (sizeStringOfParts n suf)
        = asLvmTextParts (n * suffixSize (suf.getD .mega)) := by
  constructor
  · have hfst : (asLvmTextParts b).1 ≤ 2 ^ 53 :=
      Nat.le_trans (asLvmTextParts_fst_le b) hb
    simp only [sizeStringOfParts, Option.getD_some]
    rw [doubleRound_eq_of_le hfst, asLvmTextParts_mul]
  · simp only [sizeStringOfParts]
    rw [doubleRound_eq_of_le hn]

/-- C8 witness: the round-trip theorem applied at the concrete SizeString
value 2G and the concrete size string 2T. -/
theorem sizeString_roundTrip_witness :
    sizeStringOfParts (asLvmTextParts (2 ^ 31)).1 (some (asLvmTextParts (2 ^ 31)).2) = 2 ^ 31
    ∧ asLvmTextParts (sizeStringOfParts 2 (some .tera))
        = asLvmTextParts (2 * suffixSize ((some SizeSuffix.tera).getD .mega)) :=
  sizeString_roundTrip (2 ^ 31) 2 (some .tera) (by decide) (by decide)

/-- C8 counterexample.  The byte count `2 ^ 53 + 1` is a reachable SizeString
value (for instance by `SizeString.__add__` of 9007199254740992B and 1B), its
canonical text is the numeral 9007199254740993 with the bytes suffix, yet
parsing that text back yields `2 ^ 53` (the numeral passes through a python
float, which rounds half-to-even at 53 significant bits), so the claimed
round-trip `SizeString(sz.asLvmText()) == sz` fails at this input. -/
theorem sizeString_roundTrip_counterexample :
    sizeStringAdd 9007199254740992 1 = 9007199254740993
    ∧ asLvmTextParts 9007199254740993 = (9007199254740993, SizeSuffix.bytes)
    ∧ sizeStringOfParts (asLvmTextParts 9007199254740993).1
        (some (asLvmTextParts 9007199254740993).2) = 9007199254740992
    ∧ sizeStringOfParts (asLvmTextParts 9007199254740993).1
        (some (asLvmTextParts 9007199254740993).2) ≠ 9007199254740993 := by
  refine ⟨rfl, by decide, by decide, by decide⟩

/-! ## Defaults and validators (vdomgmnt/Defaults.py)

Each validator takes a raw size string — here as its (numeral, suffix)
parts — and returns the normalized value or an ArgumentError message. -/

/-- MgmntUtils.isPowerOfTwo (vdomgmnt/Utils.py):
`(i != 0) and ((i & (i - 1)) == 0)`. -/
def isPowerOfTwo (i : Nat) : Bool := i != 0 && (i &&& (i - 1)) == 0

/-- Defaults.checkSiSize: the size string must end in a digit (bare numeral,
default mega suffix) or in one of the SI suffixes (Constants.lvmSiSuffixes);
the sector suffix is not an SI suffix and is rejected.  Accepted strings are
parsed by SizeString. -/
def checkSiSize (n : Nat) (suffix : Option SizeSuffix) : Except String Nat :=
  match suffix with
  | none => .ok (sizeStringOfParts n none)
  | some .sector => .error "must be an SI-style size string"
  | some s => .ok (sizeStringOfParts n (some s))

/-- Defaults.checkSize: any string SizeString accepts is fine (an integer
numeral with any of the suffixes never raises ValueError). -/
def checkSize (n : Nat) (suffix : Option SizeSuffix) : Except String Nat :=
  .ok (sizeStringOfParts n suffix)

/-- Defaults.checkPageCachesz: an SI size with
`blockMapCacheSizeMin = 128M <= value < blockMapCacheSizeMaxPlusOne = 16T`.
No rounding is applied to the accepted value. -/
def checkPageCachesz (n : Nat) (suffix : Option SizeSuffix) : Except String Nat :=
  match checkSiSize n suffix with
  | .error e => .error e
  | .ok b =>
    if 2 ^ 27 ≤ b ∧ b < 2 ^ 44 then .ok b
    else .error "must be at least 128M and less than 16T"

/-- Defaults.checkSlabSize: zero is accepted (the default is then used);
otherwise the value must be a power of two with
`slabSizeMin = 128M <= value <= slabSizeMax = 32G`. -/
def checkSlabSize (n : Nat) (suffix : Option SizeSuffix) : Except String Nat :=
  let b := sizeStringOfParts n suffix
  if b = 0 then .ok b
  else if isPowerOfTwo b = false ∨ ¬(2 ^ 27 ≤ b ∧ b ≤ 2 ^ 35) then
    .error "must be a power of two between 128M and 32G"
  else .ok b

/-- Defaults.checkLogicalSize: an LVM size of at most
`logicalSizeMax = 4096T = 4 PiB`. -/
def checkLogicalSize (n : Nat) (suffix : Option SizeSuffix) : Except String Nat :=
  match checkSize n suffix with
  | .error e => .error e
  | .ok b =>
    if b ≤ 2 ^ 52 then .ok b
    else .error "must be less than or equal to 4096T"

/-- VDOService.__setattr__ rounds logicalSize (and physicalSize and
maxDiscardSize) down to a block multiple whenever it is assigned; the stored
logicalSize of a volume is therefore the rounded parse of the validated
option. -/
def storedLogicalSize (b : Nat) : Nat := roundToBlock b

/-- The physicalSize a volume stores after create/import/grow: the manager
reads back a sector count from vdodumpconfig, builds the SizeString of the
numeral with the sector suffix, and assignment rounds it down to a block
multiple (VDOService.__setattr__). -/
def storedPhysicalSize (sectors : Nat) : Nat :=
  roundToBlock (sizeStringOfParts sectors (some .sector))

theorem testBit_two_mul_succ (j t : Nat) :
    (2 * j).testBit (t + 1) = j.testBit t := by
  rw [Nat.testBit_succ, Nat.mul_div_cancel_left j (by norm_num : 0 < 2)]

theorem testBit_two_mul_add_one_succ (j t : Nat) :
    (2 * j + 1).testBit (t + 1) = j.testBit t := by
  rw [Nat.testBit_succ, Nat.mul_add_div (by norm_num : 0 < 2)]
  norm_num

/-- A positive number whose bitwise AND with its predecessor vanishes is a
power of two (correctness of MgmntUtils.isPowerOfTwo). -/
theorem exists_pow_of_land_pred_eq_zero :
    ∀ i : Nat, i ≠ 0 → i &&& (i - 1) = 0 → ∃ k, i = 2 ^ k := by
  intro i
  induction i using Nat.strong_induction_on with
  | _ i ih =>
    intro hi0 hland
    rcases Nat.even_or_odd i with ⟨j, hj⟩ | ⟨j, hj⟩
    · have hj0 : j ≠ 0 := by omega
      have hjland : j &&& (j - 1) = 0 := by
        apply Nat.eq_of_testBit_eq
        intro t
        have hbit := congrArg (fun x => x.testBit (t + 1)) hland
        simp only [Nat.testBit_and, Nat.zero_testBit] at hbit ⊢
        have h1 : i = 2 * j := by omega
        have h2 : i - 1 = 2 * (j - 1) + 1 := by omega
        rw [h2, h1, testBit_two_mul_succ, testBit_two_mul_add_one_succ] at hbit
        simp [hbit]
      have hlt : j < i := by omega
      obtain ⟨k, hk⟩ := ih j hlt hj0 hjland
      exact ⟨k + 1, by rw [Nat.pow_succ]; omega⟩
    · have hzero : j = 0 := by
        by_contra hjne
        have hbit := congrArg (fun x => x.testBit (Nat.log2 j + 1)) hland
        have h1 : i = 2 * j + 1 := by omega
        have h2 : i - 1 = 2 * j := by omega
        simp only [Nat.testBit_and, Nat.zero_testBit] at hbit
        rw [h2, h1, testBit_two_mul_succ, testBit_two_mul_add_one_succ] at hbit
        have hset : j.testBit (Nat.log2 j) = true := by
          have hle : 2 ^ Nat.log2 j ≤ j := Nat.log2_self_le hjne
          have hlt2 : j < 2 ^ (Nat.log2 j + 1) := Nat.lt_log2_self
          rw [Nat.testBit_to_div_mod]
          have : j / 2 ^ Nat.log2 j = 1 := by
            rcases Nat.lt_or_ge (j / 2 ^ Nat.log2 j) 2 with hq | hq
            · have : 1 ≤ j / 2 ^ Nat.log2 j := (Nat.one_le_div_iff (Nat.pos_pow_of_pos _ (by norm_num))).2 hle
              omega
            · exfalso
              have := Nat.div_mul_le_self j (2 ^ Nat.log2 j)
              have h2le : 2 * 2 ^ Nat.log2 j ≤ (j / 2 ^ Nat.log2 j) * 2 ^ Nat.log2 j :=
                Nat.mul_le_mul_right _ hq
              have hpow : 2 * 2 ^ Nat.log2 j = 2 ^ (Nat.log2 j + 1) := by
                rw [Nat.pow_succ]; ring
              omega
          simp [this]
        rw [hset] at hbit
        simp at hbit
      exact ⟨0, by omega⟩

theorem isPowerOfTwo_exists {b : Nat} (h : isPowerOfTwo b = true) : ∃ k, b = 2 ^ k := by
  simp only [isPowerOfTwo, Bool.and_eq_true, bne_iff_ne, beq_iff_eq, ne_eq] at h
  exact exists_pow_of_land_pred_eq_zero b h.1 h.2

/-- C6 (amended).  For every size accepted by the validators: the stored
logicalSize and physicalSize are multiples of 4096 (assignment rounds them)
with logicalSize at most 4 PiB; an accepted slabSize is zero (use-the-default
sentinel) or a power of two in [128 MiB, 32 GiB] — hence a 4096 multiple;
an accepted blockMapCacheSize lies in [128 MiB, 16 TiB) but is stored
unrounded, so it need not be a multiple of 4096 (see the counterexample). -/
theorem persistedSizes_amended (n sectors : Nat) (suf : Option SizeSuffix) (b : Nat) :
    (checkPageCachesz n suf = .ok b → 2 ^ 27 ≤ b ∧ b < 2 ^ 44)
    ∧ (checkSlabSize n suf = .ok b →
        b = 0 ∨ (∃ k, b = 2 ^ k) ∧ 2 ^ 27 ≤ b ∧ b ≤ 2 ^ 35 ∧ 4096 ∣ b)
    ∧ (checkLogicalSize n suf = .ok b →
        4096 ∣ storedLogicalSize b ∧ storedLogicalSize b ≤ 2 ^ 52)
    ∧ 4096 ∣ storedPhysicalSize sectors := by
  refine ⟨?_, ?_, ?_, dvd_roundToBlock _⟩
  · intro h
    simp only [checkPageCachesz] at h
    cases hsi : checkSiSize n suf with
    | error e =>
      rw [hsi] at h
      cases h
    | ok v =>
      rw [hsi] at h
      dsimp only at h
      split_ifs at h with hcond
      cases h
      exact hcond
  · intro h
    simp only [checkSlabSize] at h
    split_ifs at h with h0 hbad
    · cases h
      exact Or.inl h0
    · cases h
      push_neg at hbad
      obtain ⟨hpt, hrange⟩ := hbad
      have ht : isPowerOfTwo (sizeStringOfParts n suf) = true := by
        revert hpt
        cases isPowerOfTwo (sizeStringOfParts n suf) <;> simp
      obtain ⟨k, hk⟩ := isPowerOfTwo_exists ht
      refine Or.inr ⟨⟨k, hk⟩, hrange.1, hrange.2, ?_⟩
      have hk12 : 12 ≤ k := by
        by_contra hklt
        have hlt27 : sizeStringOfParts n suf < 2 ^ 27 := by
          rw [hk]
          calc 2 ^ k ≤ 2 ^ 11 := Nat.pow_le_pow_right (by norm_num) (by omega)
          _ < 2 ^ 27 := by norm_num
        omega
      rw [hk]
      have h4096 : (4096 : Nat) = 2 ^ 12 := by norm_num
      rw [h4096]
      exact Nat.pow_dvd_pow 2 hk12
  · intro h
    simp only [checkLogicalSize, checkSize] at h
    split_ifs at h with hle
    cases h
    exact ⟨dvd_roundToBlock _, Nat.le_trans (roundToBlock_le _) hle⟩

/-- C6 witness: the amended theorem applied to the concrete accepted sizes
256M (block map cache and slab) and to a concrete sector count. -/
theorem persistedSizes_amended_witness :
    (2 ^ 27 ≤ 268435456 ∧ 268435456 < 2 ^ 44)
    ∧ (268435456 = 0 ∨ (∃ k, (268435456 : Nat) = 2 ^ k)
        ∧ 2 ^ 27 ≤ 268435456 ∧ 268435456 ≤ 2 ^ 35 ∧ 4096 ∣ 268435456)
    ∧ (4096 ∣ storedLogicalSize 268435456 ∧ storedLogicalSize 268435456 ≤ 2 ^ 52)
    ∧ 4096 ∣ storedPhysicalSize 9 := by
  obtain ⟨h1, h2, h3, h4⟩ := persistedSizes_amended 256 9 (some .mega) 268435456
  exact ⟨h1 (by rfl), h2 (by rfl), h3 (by rfl), h4⟩

/-- C6 counterexample.  The size string 134217729B (128 MiB plus one byte)
is accepted by Defaults.checkPageCachesz, and the accepted value is stored
as the volume's blockMapCacheSize without any rounding, yet it is not a
multiple of 4096 — refuting the claim that every persisted
blockMapCacheSize is a 4096-byte multiple. -/
theorem persistedSizes_counterexample :
    checkPageCachesz 134217729 (some .bytes) = .ok 134217729
    ∧ ¬(4096 ∣ 134217729) := by
  constructor
  · rfl
  · omega

/-! ## Volume names (Defaults.checkVDOName)

Strings are modelled by their character lists, which is what the regex
engine walks. -/

/-- The character class of the pattern used by Defaults.checkVDOName:
`A-Za-z0-9#+.:@_-`. -/
def isAllowedNameChar (c : Char) : Bool :=
  (('A' ≤ c && c ≤ 'Z') || ('a' ≤ c && c ≤ 'z') || ('0' ≤ c && c ≤ '9')
    || c == '#' || c == '+' || c == '.' || c == ':' || c == '@' || c == '_'
    || c == '-')

/-- Python `re.match` of the anchored pattern `[A-Za-z0-9#+.:@_-]*` (note:
the source uses `*`, zero or more) against the whole value.  Python's `$`
also matches just before one newline at the very end of the string, so a
value consisting of allowed characters plus one trailing newline matches
too. -/
def vdoNameRegexMatches (value : List Char) : Bool :=
  value.all isAllowedNameChar
    || (value.getLast? == some '\n' && value.dropLast.all isAllowedNameChar)

/-- Defaults.checkVDOName: reject values not matching the pattern, then
reject values starting with a dash, otherwise return the value. -/
def checkVDOName (value : List Char) : Except String (List Char) :=
  if vdoNameRegexMatches value = false then
    .error ("VDO device names may only contain characters in"
      ++ " \x27A-Za-z0-9#+.:@_-\x27: bad value \x27" ++ String.mk value ++ "\x27")
  else if value.head? == some '-' then
    .error ("VDO device names may not start with \x27-\x27: bad value \x27"
      ++ String.mk value ++ "\x27")
  else .ok value

/-- The claim as stated: `checkVDOName` returns the value exactly when it
has one or more characters, all from the allowed class, and does not start
with a dash; every other value raises ArgumentError. -/
def checkVDONameClaimedSpec : Prop :=
  ∀ value : List Char,
    ((value ≠ [] ∧ value.all isAllowedNameChar = true ∧ value.head? ≠ some '-')
        → checkVDOName value = .ok value)
    ∧ (¬(value ≠ [] ∧ value.all isAllowedNameChar = true ∧ value.head? ≠ some '-')
        → ∃ msg, checkVDOName value = .error msg)

theorem getLast?_eq_newline_iff (value : List Char) :
    (value.getLast? = some '\n') ↔ ∃ w, value = w ++ ['\n'] := by
  constructor
  · intro h
    rcases value.eq_nil_or_concat with hnil | ⟨w, c, hw⟩
    · rw [hnil] at h
      cases h
    · subst hw
      rw [List.concat_eq_append, List.getLast?_concat] at h
      cases h
      exact ⟨w, List.concat_eq_append w _⟩
  · rintro ⟨w, rfl⟩
    exact List.getLast?_concat w

/-- C7 (amended).  `checkVDOName` returns the value exactly when it consists
of zero or more allowed characters — the source pattern uses `*`, so the
empty value is accepted — possibly followed by one trailing newline
(tolerated by python's `$`), and does not start with a dash; every other
value raises ArgumentError. -/
theorem checkVDOName_amended (value : List Char) :
    (checkVDOName value = .ok value ↔
      ((value.all isAllowedNameChar = true
          ∨ ∃ w, value = w ++ ['\n'] ∧ w.all isAllowedNameChar = true)
        ∧ value.head? ≠ some '-'))
    ∧ (checkVDOName value ≠ .ok value → ∃ msg, checkVDOName value = .error msg) := by
  constructor
  · unfold checkVDOName
    have hre : vdoNameRegexMatches value = true ↔
        (value.all isAllowedNameChar = true
          ∨ ∃ w, value = w ++ ['\n'] ∧ w.all isAllowedNameChar = true) := by
      unfold vdoNameRegexMatches
      simp only [Bool.or_eq_true, Bool.and_eq_true, beq_iff_eq]
      constructor
      · rintro (h | ⟨hlast, hall⟩)
        · exact Or.inl h
        · obtain ⟨w, rfl⟩ := (getLast?_eq_newline_iff value).1 hlast
          rw [List.dropLast_concat] at hall
          exact Or.inr ⟨w, rfl, hall⟩
      · rintro (h | ⟨w, rfl, hall⟩)
        · exact Or.inl h
        · refine Or.inr ⟨(getLast?_eq_newline_iff _).2 ⟨w, rfl⟩, ?_⟩
          rw [List.dropLast_concat]
          exact hall
    split_ifs with hmatch hdash
    · rw [Bool.eq_false_iff] at hmatch
      simp only [Ne, hre] at hmatch
      constructor
      · intro h
        cases h
      · intro h
        exact absurd h.1 hmatch
    · constructor
      · intro h
        cases h
      · intro h
        rw [beq_iff_eq] at hdash
        exact absurd hdash h.2
    · constructor
      · intro _
        refine ⟨?_, ?_⟩
        · rw [Bool.not_eq_false] at hmatch
          exact hre.1 hmatch
        · intro hcontra
          rw [hcontra] at hdash
          simp at hdash
      · intro _
        rfl
  · intro h
    unfold checkVDOName at h ⊢
    split_ifs at h ⊢
    · exact ⟨_, rfl⟩
    · exact ⟨_, rfl⟩
    · exact absurd rfl h

/-- C7 counterexample.  The claim (pattern `+`, one or more characters)
requires the empty value to be rejected, but the source pattern uses `*`
and `checkVDOName` of the empty value returns it successfully. -/
theorem checkVDOName_counterexample : ¬checkVDONameClaimedSpec := by
  intro h
  obtain ⟨msg, hmsg⟩ := (h []).2 (by simp)
  cases hmsg

/-! ## Thread-count consistency (VDOService._validateModifiableThreadCounts)

VDOService._validateParameters (called by create and import) and
VDOService.setModifiableOptions both funnel the hash-zone, logical and
physical thread counts through this check before any value is stored. -/

/-- The ArgumentError message raised for inconsistent thread counts. -/
def threadConsistencyMessage : String :=
  "hash zone, logical and physical threads must either all be zero"
    ++ " or all be non-zero"

/-- VDOService._validateModifiableThreadCounts: arguments that are python
None fall back to the instance's current counts; the effective triple must
be all zero or all non-zero. -/
def validateModifiableThreadCounts (hashZone logical physical : Option Nat)
    (selfHashZone selfLogical selfPhysical : Nat) : Except String Unit :=
  let h := hashZone.getD selfHashZone
  let l := logical.getD selfLogical
  let p := physical.getD selfPhysical
  if (h = 0 ∨ l = 0 ∨ p = 0) ∧ ¬(h = 0 ∧ l = 0 ∧ p = 0) then
    .error threadConsistencyMessage
  else .ok ()

/-- The thread counts a VDOService instance carries. -/
structure ThreadCounts where
  hashZoneThreads : Nat
  logicalThreads : Nat
  physicalThreads : Nat

/-- The call made by VDOService._validateParameters during create/import:
the instance's own counts are passed positionally. -/
def validateParametersThreadCheck (v : ThreadCounts) : Except String Unit :=
  validateModifiableThreadCounts (some v.hashZoneThreads)
    (some v.logicalThreads) (some v.physicalThreads)
    v.hashZoneThreads v.logicalThreads v.physicalThreads

/-- The call made by VDOService.setModifiableOptions: the argparse values
(None when the option was not given) with the instance's counts as
fallback. -/
def setModifiableOptionsThreadCheck
    (argHashZone argLogical argPhysical : Option Nat) (v : ThreadCounts) :
    Except String Unit :=
  validateModifiableThreadCounts argHashZone argLogical argPhysical
    v.hashZoneThreads v.logicalThreads v.physicalThreads

/-- The invariant: all zero or all non-zero. -/
def consistentThreadCounts (h l p : Nat) : Prop :=
  (h = 0 ∧ l = 0 ∧ p = 0) ∨ (h ≠ 0 ∧ l ≠ 0 ∧ p ≠ 0)

theorem validateModifiableThreadCounts_iff
    (oh ol op : Option Nat) (sh sl sp : Nat) :
    validateModifiableThreadCounts oh ol op sh sl sp = .ok ()
      ↔ consistentThreadCounts (oh.getD sh) (ol.getD sl) (op.getD sp) := by
  simp only [validateModifiableThreadCounts, consistentThreadCounts]
  split_ifs with hcond
  · constructor
    · intro h
      cases h
    · intro h
      exact absurd h (by tauto)
  · constructor
    · intro _
      by_contra hc
      exact hcond (by tauto)
    · intro _
      rfl

/-- C5.  Volume creation (via _validateParameters) and setModifiableOptions
accept the thread counts exactly when the effective triple (hash zone,
logical, physical) is all zero or all non-zero, and raise ArgumentError
whenever some but not all components are zero; hence every volume accepted
into the registry satisfies the invariant. -/
theorem threadCounts_consistency
    (argHashZone argLogical argPhysical : Option Nat) (v : ThreadCounts) :
    (setModifiableOptionsThreadCheck argHashZone argLogical argPhysical v = .ok ()
      ↔ consistentThreadCounts (argHashZone.getD v.hashZoneThreads)
          (argLogical.getD v.logicalThreads) (argPhysical.getD v.physicalThreads))
    ∧ (validateParametersThreadCheck v = .ok ()
      ↔ consistentThreadCounts v.hashZoneThreads v.logicalThreads v.physicalThreads)
    ∧ (¬consistentThreadCounts (argHashZone.getD v.hashZoneThreads)
          (argLogical.getD v.logicalThreads) (argPhysical.getD v.physicalThreads)
      → setModifiableOptionsThreadCheck argHashZone argLogical argPhysical v
          = .error threadConsistencyMessage) := by
  refine ⟨validateModifiableThreadCounts_iff _ _ _ _ _ _,
    validateModifiableThreadCounts_iff _ _ _ _ _ _, ?_⟩
  intro hnc
  simp only [setModifiableOptionsThreadCheck, validateModifiableThreadCounts]
  unfold consistentThreadCounts at hnc
  split_ifs with hcond
  · rfl
  · exact absurd (by tauto : consistentThreadCounts
      (argHashZone.getD v.hashZoneThreads) (argLogical.getD v.logicalThreads)
      (argPhysical.getD v.physicalThreads)) hnc

/-- C5 witness: the specification's own boundary example — modifying to
hash zone 0, logical 2, physical 2 is rejected with the ArgumentError, and
modifying all three to zero is accepted. -/
theorem threadCounts_consistency_witness :
    setModifiableOptionsThreadCheck (some 0) (some 2) (some 2) ⟨1, 1, 1⟩
      = .error threadConsistencyMessage
    ∧ setModifiableOptionsThreadCheck (some 0) (some 0) (some 0) ⟨1, 1, 1⟩
      = .ok () :=
  ⟨(threadCounts_consistency (some 0) (some 2) (some 2) ⟨1, 1, 1⟩).2.2
      (by simp [consistentThreadCounts]),
    ((threadCounts_consistency (some 0) (some 0) (some 0) ⟨1, 1, 1⟩).1).2
      (Or.inl ⟨rfl, rfl, rfl⟩)⟩

/-! ## Operation states and previous-operation recovery
(VDOService.OperationState, VDOService._handlePreviousOperationFailure)

The persisted operation state is a string; the class attributes below are
the recognised values. -/

namespace OperationState

/-- OperationState.beginCreate. -/
def beginCreate : String := "beginCreate"

/-- OperationState.beginGrowLogical. -/
def beginGrowLogical : String := "beginGrowLogical"

/-- OperationState.beginGrowPhysical. -/
def beginGrowPhysical : String := "beginGrowPhysical"

/-- OperationState.beginImport. -/
def beginImport : String := "beginImport"

/-- OperationState.beginRunningSetWritePolicy. -/
def beginRunningSetWritePolicy : String := "beginRunningSetWritePolicy"

/-- OperationState.finished. -/
def finished : String := "finished"

/-- OperationState.unknown. -/
def unknown : String := "unknown"

/-- OperationState.specificOperationStates: the states set by normal
processing. -/
def specificOperationStates : List String :=
  [beginCreate, beginGrowLogical, beginGrowPhysical, beginImport,
    beginRunningSetWritePolicy, finished]

/-- OperationState.names: the human-readable operation name shown in the
previous-operation-failure message (a lookup in the names dictionary, whose
keys are exactly the recognised states). -/
def names (st : String) : String :=
  if st = beginCreate then "create"
  else if st = beginGrowLogical then "grow logical"
  else if st = beginGrowPhysical then "grow physical"
  else if st = beginImport then "import"
  else if st = beginRunningSetWritePolicy then "write policy"
  else "unknown"

end OperationState

/-- VDOService._computedPreviousOperationFailure: a previous operation
failed iff the operation state is neither unknown nor finished. -/
def previousOperationFailure (st : String) : Bool :=
  (st != OperationState.unknown) && (st != OperationState.finished)

/-- The fixed recovery instruction appended to the failure message
(`"; recover by performing 'remove --force'"`). -/
def removeForceRecovery : String :=
  "; recover by performing \x27remove --force\x27"

/-- The message of _generatePreviousOperationFailureResponse:
`VDO volume {name} previous operation ({operation}) is incomplete` followed
by the remove-force recovery instruction. -/
def previousOperationFailureMessage (name st : String) : String :=
  "VDO volume " ++ name ++ " previous operation (" ++ OperationState.names st
    ++ ") is incomplete" ++ removeForceRecovery

/-- The control-flow outcome of VDOService._handlePreviousOperationFailure.
The raise outcomes carry the exception message; the recover outcomes mark
that the corresponding recovery routine runs and the operation then
continues. -/
inductive HPOFOutcome where
  | noFailure
  | raisePreviousOperationError (msg : String)
  | raiseDeveloperError (msg : String)
  | recoverGrowLogical
  | recoverGrowPhysical
  | recoverRunningSetWritePolicy
  deriving DecidableEq

/-- VDOService._handlePreviousOperationFailure, paired with the operation
state as this method itself leaves it: the method mutates no state before
raising (it only clears the in-memory failure flag after a successful
recovery), so every raising branch leaves the state untouched.  The state
changes performed inside the recovery routines are behind the recover
outcomes and are not needed by the claims. -/
def handlePreviousOperationFailure (name st : String) : HPOFOutcome × String :=
  if previousOperationFailure st = false then (.noFailure, st)
  else if OperationState.specificOperationStates.contains st = false then
    (.raiseDeveloperError
      ("VDO volume " ++ name ++ " in unknown operation state: " ++ st), st)
  else if st = OperationState.beginCreate then
    (.raisePreviousOperationError (previousOperationFailureMessage name st), st)
  else if st = OperationState.beginGrowLogical then (.recoverGrowLogical, st)
  else if st = OperationState.beginGrowPhysical then (.recoverGrowPhysical, st)
  else if st = OperationState.beginImport then
    (.raisePreviousOperationError (previousOperationFailureMessage name st), st)
  else if st = OperationState.beginRunningSetWritePolicy then
    (.recoverRunningSetWritePolicy, st)
  else
    (.raiseDeveloperError
      ("Missing handler for recover from operation state: " ++ st), st)

/-- All recognised operation states. -/
def recognisedOperationStates : List String :=
  OperationState.unknown :: OperationState.specificOperationStates

/-- C1.  Pre-operation recovery — the first action of create, import,
start, stop and remove without force, growLogical, growPhysical,
setWritePolicy, setCompression, setDeduplication, setModifiableOptions,
activate, deactivate and status — raises VDOServicePreviousOperationError
for a volume persisted in beginCreate or beginImport, with a message ending
in the instruction to recover via remove --force, and leaves the operation
state unchanged; a state outside the recognised set raises a developer
error (exit status 4) instead, also leaving the state unchanged. -/
theorem previousOperationRecovery (name st : String) :
    ((st = OperationState.beginCreate ∨ st = OperationState.beginImport) →
      handlePreviousOperationFailure name st
          = (.raisePreviousOperationError
              (previousOperationFailureMessage name st), st)
        ∧ ∃ p, previousOperationFailureMessage name st
            = p ++ removeForceRecovery)
    ∧ (st ∉ recognisedOperationStates →
      handlePreviousOperationFailure name st
        = (.raiseDeveloperError
            ("VDO volume " ++ name ++ " in unknown operation state: " ++ st),
          st)) := by
  constructor
  · rintro (rfl | rfl)
    · exact ⟨by rfl, ⟨_, rfl⟩⟩
    · exact ⟨by rfl, ⟨_, rfl⟩⟩
  · intro hst
    simp only [recognisedOperationStates, OperationState.specificOperationStates,
      List.mem_cons, List.not_mem_nil, or_false, not_or] at hst
    obtain ⟨hu, hc, hgl, hgp, hi, hwp, hf⟩ := hst
    have hprev : previousOperationFailure st = true := by
      simp only [previousOperationFailure, Bool.and_eq_true, bne_iff_ne, ne_eq]
      exact ⟨hu, hf⟩
    have hcont : OperationState.specificOperationStates.contains st = false := by
      rw [Bool.eq_false_iff]
      intro htrue
      obtain ⟨b, hb, hbeq⟩ := List.contains_iff_exists_mem_beq.1 htrue
      rw [beq_iff_eq] at hbeq
      subst hbeq
      simp only [OperationState.specificOperationStates, List.mem_cons,
        List.not_mem_nil, or_false] at hb
      rcases hb with h | h | h | h | h | h
      · exact hc h
      · exact hgl h
      · exact hgp h
      · exact hi h
      · exact hwp h
      · exact hf h
    unfold handlePreviousOperationFailure
    rw [if_neg (by simp [hprev]), if_pos hcont]

/-- C1 witness: recovery applied to a volume stuck in beginCreate, and to a
volume carrying an unrecognised state string. -/
theorem previousOperationRecovery_witness :
    (handlePreviousOperationFailure "vdo1" OperationState.beginCreate
        = (.raisePreviousOperationError
            (previousOperationFailureMessage "vdo1" OperationState.beginCreate),
          OperationState.beginCreate)
      ∧ ∃ p, previousOperationFailureMessage "vdo1" OperationState.beginCreate
          = p ++ removeForceRecovery)
    ∧ handlePreviousOperationFailure "vdo1" "beginFrobnicate"
        = (.raiseDeveloperError
            ("VDO volume " ++ "vdo1" ++ " in unknown operation state: "
              ++ "beginFrobnicate"),
          "beginFrobnicate") :=
  ⟨(previousOperationRecovery "vdo1" OperationState.beginCreate).1 (Or.inl rfl),
    (previousOperationRecovery "vdo1" "beginFrobnicate").2 (by decide)⟩

/-! ## growLogical (VDOService.growLogical)

The embedding covers the validation prefix of the operation: recovery of a
previous failure, the running check, rounding, and the size comparison.  A
strictly larger rounded size proceeds into the grow (which transitions the
persisted state to beginGrowLogical, reloads the device-mapper table and
finally transitions to finished); the second component lists the
operation-state transitions persisted by the modelled prefix. -/

/-- Exit status of StateExitStatus (ExitStatusMixins). -/
def StateExitStatus : Nat := 5

/-- Exit status of UserExitStatus (ExitStatusMixins). -/
def UserExitStatus : Nat := 7

/-- A manager error: message plus exit status. -/
structure ServiceError where
  msg : String
  exitStatus : Nat
  deriving DecidableEq

/-- The message for growing to a size below the current one
(`str` of a SizeString renders its LVM text). -/
def cantShrinkMessage (oldSize : Nat) : String :=
  "Can\x27t shrink a VDO volume (old size " ++ asLvmText oldSize ++ ")"

/-- The message for growing by less than one 4096-byte block. -/
def cantGrowMessage : String :=
  "Can\x27t grow a VDO volume by less than 4096 bytes"

/-- Outcome of the growLogical validation prefix. -/
inductive GrowLogicalOutcome where
  | prevOpFailure (outcome : HPOFOutcome)
  | raiseError (e : ServiceError)
  | proceeds (roundedNewSize : Nat)
  deriving DecidableEq

/-- VDOService.growLogical on a volume named `name` whose persisted
operation state is `st`, running status `running`, current logicalSize
`logicalSize` (bytes) and requested new size `newSize` (bytes): handle a
previous operation failure, require the volume to be running
(StateExitStatus), round the new size down to a block multiple, reject a
smaller (can't shrink) or equal (can't grow by less than a block) result
with a UserExitStatus error, and otherwise proceed, transitioning the
persisted state to beginGrowLogical. -/
def growLogical (name st : String) (running : Bool)
    (logicalSize newSize : Nat) : GrowLogicalOutcome × List String :=
  match handlePreviousOperationFailure name st with
  | (.raisePreviousOperationError m, _) =>
    (.prevOpFailure (.raisePreviousOperationError m), [])
  | (.raiseDeveloperError m, _) =>
    (.prevOpFailure (.raiseDeveloperError m), [])
  | _ =>
    if running = false then
      (.raiseError ⟨"VDO volume " ++ name ++ " must be running",
        StateExitStatus⟩, [])
    else
      let rounded := roundToBlock newSize
      if rounded < logicalSize then
        (.raiseError ⟨cantShrinkMessage logicalSize, UserExitStatus⟩, [])
      else if rounded = logicalSize then
        (.raiseError ⟨cantGrowMessage, UserExitStatus⟩, [])
      else (.proceeds rounded, [OperationState.beginGrowLogical])

/-- C4.  For a running volume in state finished, growLogical first rounds
the requested size down to a multiple of 4096; a rounded size strictly
below the current logicalSize raises the can't-shrink user error and an
equal rounded size raises the can't-grow-by-less-than-4096-bytes user
error, in both cases performing no operation-state transition (hence
leaving the registry unchanged); only a strictly greater rounded size
proceeds (transitioning to beginGrowLogical). -/
theorem growLogical_validation (name st : String) (running : Bool)
    (logicalSize newSize : Nat)
    (hst : st = OperationState.finished) (hrun : running = true) :
    (roundToBlock newSize % 4096 = 0 ∧ roundToBlock newSize ≤ newSize
      ∧ newSize < roundToBlock newSize + 4096)
    ∧ (roundToBlock newSize < logicalSize →
        growLogical name st running logicalSize newSize
          = (.raiseError ⟨cantShrinkMessage logicalSize, UserExitStatus⟩, []))
    ∧ (roundToBlock newSize = logicalSize →
        growLogical name st running logicalSize newSize
          = (.raiseError ⟨cantGrowMessage, UserExitStatus⟩, []))
    ∧ (logicalSize < roundToBlock newSize →
        growLogical name st running logicalSize newSize
          = (.proceeds (roundToBlock newSize),
              [OperationState.beginGrowLogical])) := by
  subst hst hrun
  have hpof : handlePreviousOperationFailure name OperationState.finished
      = (.noFailure, OperationState.finished) := rfl
  have hmod : roundToBlock newSize % 4096 = 0 := by
    unfold roundToBlock VDO_BLOCK_SIZE
    omega
  have hle : roundToBlock newSize ≤ newSize := roundToBlock_le newSize
  have hlt : newSize < roundToBlock newSize + 4096 := by
    unfold roundToBlock VDO_BLOCK_SIZE
    omega
  refine ⟨⟨hmod, hle, hlt⟩, ?_, ?_, ?_⟩
  · intro hshrink
    unfold growLogical
    rw [hpof]
    dsimp only
    rw [if_neg (by simp), if_pos hshrink]
  · intro heq
    unfold growLogical
    rw [hpof]
    dsimp only
    rw [if_neg (by simp), if_neg (by omega), if_pos heq]
  · intro hgt
    unfold growLogical
    rw [hpof]
    dsimp only
    rw [if_neg (by simp), if_neg (by omega), if_neg (by omega)]

/-- C4 witness: a running, finished volume of logicalSize 8192 bytes.
Requesting 4100 bytes (rounded to 4096) is rejected as shrinking,
requesting 8191 + 4096 bytes (rounded to 8192) is rejected as growing by
less than a block, and requesting 16384 bytes proceeds. -/
theorem growLogical_validation_witness :
    growLogical "vdo1" OperationState.finished true 8192 4100
        = (.raiseError ⟨cantShrinkMessage 8192, UserExitStatus⟩, [])
    ∧ growLogical "vdo1" OperationState.finished true 8192 12287
        = (.raiseError ⟨cantGrowMessage, UserExitStatus⟩, [])
    ∧ growLogical "vdo1" OperationState.finished true 8192 16384
        = (.proceeds (roundToBlock 16384), [OperationState.beginGrowLogical]) :=
  ⟨(growLogical_validation "vdo1" OperationState.finished true 8192 4100
      rfl rfl).2.1 (by decide),
    (growLogical_validation "vdo1" OperationState.finished true 8192 12287
      rfl rfl).2.2.1 (by decide),
    (growLogical_validation "vdo1" OperationState.finished true 8192 16384
      rfl rfl).2.2.2 (by decide)⟩

/-! ## Configuration loading and schema versions
(vdomgmnt/Configuration.py: Configuration.__init__/_read/_validateVersion)

Only what the claims need is modelled: the result of `yaml.safe_load`
(a scanner error, a document without a `config` section, or a parsed
Configuration instance carrying a version and the volume map) and the
`_read` path that builds the in-memory state from it. -/

/-- The Configuration instance decoded from YAML: its schema version tag
and its volumes (only the names matter here). -/
structure ParsedConfig where
  version : Int
  vdos : List String

/-- Result of `yaml.safe_load` plus the `conf["config"]` lookup in
Configuration._read. -/
inductive YamlLoadResult where
  | scanError
  | missingConfigKey
  | parsed (config : ParsedConfig)

/-- The in-memory Configuration state relevant to loading. -/
structure ConfigurationState where
  schemaVersion : Int
  vdos : List String
  dirty : Bool
  deriving DecidableEq

/-- Configuration.__init__ defaults before any file is read:
`_schemaVersion = 0x20170907`, no vdos, not dirty. -/
def initialConfiguration : ConfigurationState :=
  { schemaVersion := 0x20170907, vdos := [], dirty := false }

/-- Configuration.supportedSchemaVersions. -/
def supportedSchemaVersions : List Int := [0x20170907]

/-- Configuration._yamlUpdateFromInstance: copy the version and the vdos
from the decoded instance, unconditionally. -/
def yamlUpdateFromInstance (cur : ConfigurationState) (inst : ParsedConfig) :
    ConfigurationState :=
  { cur with schemaVersion := inst.version, vdos := inst.vdos }

/-- Configuration._read: scanner errors and a missing or malformed `config`
section raise BadConfigurationFileError; otherwise the state is updated
from the decoded instance and the dirty flag cleared.  No step of this path
consults `_validateVersion`. -/
def configRead (cur : ConfigurationState) (load : YamlLoadResult) :
    Except String ConfigurationState :=
  match load with
  | .scanError => .error "Not a valid configuration file"
  | .missingConfigKey =>
    .error "Not a valid configuration file (missing \x27config\x27 section)"
  | .parsed c => .ok { yamlUpdateFromInstance cur c with dirty := false }

/-- The BadConfigurationFileError message of Configuration._validateVersion. -/
def unsupportedVersionMessage (ver : Int) : String :=
  "Configuration file version " ++ toString ver ++ " not supported"

/-- Configuration._validateVersion: reject versions outside the supported
list.  Defined in the source — but never invoked by any load path. -/
def validateVersion (ver : Int) : Except String Unit :=
  if supportedSchemaVersions.contains ver then .ok ()
  else .error (unsupportedVersionMessage ver)

/-- C2 (code behaviour at the failing input).  A configuration file whose
version tag is the unsupported 0x99999999 loads successfully — `_read`
stores the version as-is and never calls `_validateVersion` — even though
`_validateVersion`, had it been called, would raise
BadConfigurationFileError for exactly that version; a file with the
supported version 0x20170907 also loads successfully. -/
theorem configVersion_code_behavior :
    configRead initialConfiguration (.parsed ⟨0x99999999, ["vdo1"]⟩)
        = .ok { schemaVersion := 0x99999999, vdos := ["vdo1"], dirty := false }
    ∧ validateVersion 0x99999999 = .error (unsupportedVersionMessage 0x99999999)
    ∧ configRead initialConfiguration (.parsed ⟨0x20170907, ["vdo1"]⟩)
        = .ok { schemaVersion := 0x20170907, vdos := ["vdo1"], dirty := false }
    ∧ validateVersion 0x20170907 = .ok () :=
  ⟨rfl, rfl, rfl, rfl⟩

/-! ## Configuration.persist and Configuration._removeFile

The externally visible file-system and console actions of a persist call,
in execution order. -/

/-- An externally visible action of Configuration.persist. -/
inductive PersistAction where
  | printYaml
  | logRmCommand
  | removeNewFile
  | writeNewFile
  | flushAndFsyncNewFile
  | renameNewOverConfig
  | fsyncDirectory
  | removeConfigFile
  | dropSingleton
  deriving DecidableEq

/-- The state persist consults: the readonly and dirty flags, whether the
registry is empty, Command.noRunMode(), and whether the temp file and the
configuration file currently exist. -/
structure PersistEnv where
  readonly : Bool
  dirty : Bool
  empty : Bool
  noRun : Bool
  newFileExists : Bool
  configFileExists : Bool

/-- Configuration._removeFile: in noRun mode the rm command is only run
through the no-op command runner (which logs it); otherwise the file is
removed if present (followed by a directory fsync) and the singleton-table
entry is dropped. -/
def removeFile (env : PersistEnv) : List PersistAction :=
  if env.noRun then [.logRmCommand]
  else
    (if env.configFileExists then [.removeConfigFile, .fsyncDirectory] else [])
      ++ [.dropSingleton]

/-- Configuration.persist: nothing for a readonly or clean configuration;
an empty registry delegates to _removeFile; in noRun mode the YAML is
printed; otherwise a stale temp file is removed, the banner and YAML are
written to the temp file, flushed and fsynced, the temp file is renamed
over the configuration file and the directory is fsynced. -/
def persist (env : PersistEnv) : List PersistAction :=
  if env.readonly then []
  else if env.dirty = false then []
  else if env.empty then removeFile env
  else if env.noRun then [.printYaml]
  else
    (if env.newFileExists then [.removeNewFile] else [])
      ++ [.writeNewFile, .flushAndFsyncNewFile, .renameNewOverConfig,
        .fsyncDirectory]

/-- The C3 claim as stated, for a writable, modified registry: a non-empty
registry (outside dry-run) produces the write/flush/fsync/rename/fsync-dir
sequence; an empty registry deletes the configuration file and fsyncs the
directory; in dry-run mode the YAML is printed and no file is written,
renamed or removed. -/
def persistClaimedSpec : Prop :=
  ∀ env : PersistEnv, env.readonly = false → env.dirty = true →
    ((env.empty = false ∧ env.noRun = false →
        persist env = (if env.newFileExists then [.removeNewFile] else [])
          ++ [.writeNewFile, .flushAndFsyncNewFile, .renameNewOverConfig,
            .fsyncDirectory])
      ∧ (env.empty = true ∧ env.configFileExists = true →
        PersistAction.removeConfigFile ∈ persist env
          ∧ PersistAction.fsyncDirectory ∈ persist env)
      ∧ (env.noRun = true →
        PersistAction.printYaml ∈ persist env
          ∧ PersistAction.writeNewFile ∉ persist env
          ∧ PersistAction.renameNewOverConfig ∉ persist env
          ∧ PersistAction.removeConfigFile ∉ persist env))

/-- C3 (amended).  For a writable, modified registry: a non-empty registry
outside dry-run removes a stale temp file if present, then writes the YAML
to the temp file, flushes and fsyncs it, renames it over the configuration
file and fsyncs the directory; an empty registry outside dry-run deletes
the configuration file if present (fsyncing the directory) and drops the
singleton entry; dry-run with a non-empty registry prints the YAML and
touches no file; dry-run with an empty registry only logs the rm command —
it neither prints the YAML nor deletes anything. -/
theorem persist_amended (env : PersistEnv)
    (hro : env.readonly = false) (hdirty : env.dirty = true) :
    (env.empty = false ∧ env.noRun = false →
      persist env = (if env.newFileExists then [.removeNewFile] else [])
        ++ [.writeNewFile, .flushAndFsyncNewFile, .renameNewOverConfig,
          .fsyncDirectory])
    ∧ (env.empty = true ∧ env.noRun = false →
      persist env
        = (if env.configFileExists
            then [.removeConfigFile, .fsyncDirectory] else [])
          ++ [.dropSingleton])
    ∧ (env.empty = false ∧ env.noRun = true → persist env = [.printYaml])
    ∧ (env.empty = true ∧ env.noRun = true →
      persist env = [.logRmCommand]) := by
  refine ⟨?_, ?_, ?_, ?_⟩
  · rintro ⟨he, hn⟩
    simp [persist, hro, hdirty, he, hn]
  · rintro ⟨he, hn⟩
    simp [persist, removeFile, hro, hdirty, he, hn]
  · rintro ⟨he, hn⟩
    simp [persist, hro, hdirty, he, hn]
  · rintro ⟨he, hn⟩
    simp [persist, removeFile, hro, hdirty, he, hn]

/-- C3 witness: the amended theorem applied to a concrete environment in
each of the four cases. -/
theorem persist_amended_witness :
    persist ⟨false, true, false, false, true, true⟩
        = [.removeNewFile, .writeNewFile, .flushAndFsyncNewFile,
          .renameNewOverConfig, .fsyncDirectory]
    ∧ persist ⟨false, true, true, false, false, true⟩
        = [.removeConfigFile, .fsyncDirectory, .dropSingleton]
    ∧ persist ⟨false, true, false, true, false, true⟩ = [.printYaml]
    ∧ persist ⟨false, true, true, true, false, true⟩ = [.logRmCommand] :=
  ⟨(persist_amended ⟨false, true, false, false, true, true⟩ rfl rfl).1
      ⟨rfl, rfl⟩,
    (persist_amended ⟨false, true, true, false, false, true⟩ rfl rfl).2.1
      ⟨rfl, rfl⟩,
    (persist_amended ⟨false, true, false, true, false, true⟩ rfl rfl).2.2.1
      ⟨rfl, rfl⟩,
    (persist_amended ⟨false, true, true, true, false, true⟩ rfl rfl).2.2.2
      ⟨rfl, rfl⟩⟩

/-- C3 counterexample.  With an empty registry in dry-run mode (writable
and modified, configuration file present) persist only logs the rm
command: it neither deletes the configuration file nor prints the YAML,
contradicting the claim as stated. -/
theorem persist_counterexample : ¬persistClaimedSpec := by
  intro h
  have hspec := h ⟨false, true, true, true, false, true⟩ rfl rfl
  have hmem := hspec.2.1 ⟨rfl, rfl⟩
  have : PersistAction.removeConfigFile ∈ [PersistAction.logRmCommand] :=
    hmem.1
  simp at this

/-! ## Transactional scopes (utils/Transaction.py)

An undo stage is a callable with side effects on a state `σ` which may
itself raise; its model returns the state after its effects together with
the flag whether it raised.  The body of a transactional method registers
undo stages (in order) and either returns a value or raises. -/

/-- Execution of one undo stage inside `_Transaction.undo`:
`try: undoStage() except Exception: pass` — the effects happen, the
exception (the Bool) is discarded, and control always continues. -/
def runUndoStage {σ : Type} (stage : σ → σ × Bool) (s : σ) : σ :=
  (stage s).1

/-- The loop of `_Transaction.undo` over an already-reversed stage list. -/
def runUndoStages {σ : Type} : List (σ → σ × Bool) → σ → σ
  | [], s => s
  | f :: fs, s => runUndoStages fs (runUndoStage f s)

/-- _Transaction.undo: copy the undo-stage list, reverse it, and run each
stage, swallowing its errors. -/
def transactionUndo {σ : Type} (stages : List (σ → σ × Bool)) (s : σ) : σ :=
  runUndoStages stages.reverse s

/-- What the body of a transactional method did: return a value or raise an
exception, in both cases having registered `stages` (in registration order)
and left the state at `state`. -/
inductive BodyOutcome (σ ε α : Type) where
  | ok (value : α) (stages : List (σ → σ × Bool)) (state : σ)
  | raised (exn : ε) (stages : List (σ → σ × Bool)) (state : σ)

/-- The wrapper installed by the `transactional` decorator: on a normal
return the result is passed through (the transaction is just popped); on an
exception the transaction's undo runs and the original exception is
re-raised. -/
def transactionalWrap {σ ε α : Type} (body : σ → BodyOutcome σ ε α) (s : σ) :
    Except ε α × σ :=
  match body s with
  | .ok v _ s2 => (.ok v, s2)
  | .raised e stages s2 => (.error e, transactionUndo stages s2)

theorem runUndoStages_append {σ : Type} (xs ys : List (σ → σ × Bool)) (s : σ) :
    runUndoStages (xs ++ ys) s = runUndoStages ys (runUndoStages xs s) := by
  induction xs generalizing s with
  | nil => rfl
  | cons f fs ih => simp [runUndoStages, ih]

theorem transactionUndo_eq_foldr {σ : Type} (stages : List (σ → σ × Bool))
    (s : σ) :
    transactionUndo stages s = stages.foldr (fun f t => (f t).1) s := by
  induction stages with
  | nil => rfl
  | cons f fs ih =>
    simp only [transactionUndo, List.reverse_cons, runUndoStages_append,
      List.foldr_cons]
    rw [← transactionUndo]
    rw [ih]
    rfl

/-- C9.  When the body of a transactional scope raises, the registered undo
stages run in reverse order of registration — the fold from the right
applies the most recently registered stage first and the first-registered
stage last — every stage's own exception is swallowed (only the state
component of a stage's result is used; its raised flag is discarded, so the
remaining stages always run), and the original exception is re-raised to
the caller. -/
theorem transactionalWrap_undo {σ ε α : Type} (body : σ → BodyOutcome σ ε α)
    (s s2 : σ) (e : ε) (stages : List (σ → σ × Bool))
    (h : body s = .raised e stages s2) :
    transactionalWrap body s = (.error e, stages.foldr (fun f t => (f t).1) s2)
    ∧ (∀ (f : σ → σ × Bool) (fs : List (σ → σ × Bool)) (t : σ),
        runUndoStages (f :: fs) t = runUndoStages fs (runUndoStage f t))
    ∧ (∀ (f : σ → σ × Bool) (t : σ), runUndoStage f t = (f t).1) := by
  refine ⟨?_, fun f fs t => rfl, fun f t => rfl⟩
  unfold transactionalWrap
  rw [h]
  dsimp only
  rw [transactionUndo_eq_foldr]

/-- First undo stage of the C9 witness: logs 1 and raises (its error must
be swallowed). -/
def undoWitnessStageOne : List Nat → List Nat × Bool :=
  fun s => (s ++ [1], true)

/-- Second undo stage of the C9 witness: logs 2 and succeeds. -/
def undoWitnessStageTwo : List Nat → List Nat × Bool :=
  fun s => (s ++ [2], false)

/-- A C9 witness body: registers stage one then stage two and raises
exception 7. -/
def undoWitnessBody : List Nat → BodyOutcome (List Nat) Nat Unit :=
  fun s => .raised 7 [undoWitnessStageOne, undoWitnessStageTwo] s

/-- C9 witness: the raising body makes the wrapper re-raise exception 7
after running stage two first and stage one second (LIFO), stage one's
raise notwithstanding. -/
theorem transactionalWrap_undo_witness :
    transactionalWrap undoWitnessBody [] = (.error 7, [2, 1]) :=
  (transactionalWrap_undo undoWitnessBody [] [] 7
    [undoWitnessStageOne, undoWitnessStageTwo] rfl).1

/-! ## Command runner (utils/Command.py)

`Command.run` is modelled over an environment `exec` giving the outcome of
the external process at each attempt index (a CommandError of type `ε` or
the captured stdout).  The result pairs the python return value — `none`
models python None, `some s` a returned string, `.error e` a raised
CommandError — with the number of process executions performed. -/

/-- The keyword options of Command.run. -/
structure RunOptions where
  retries : Nat
  noThrow : Bool
  strip : Bool

/-- The `for count in range(retries)` loop body of Command.run: stop with
python None when the iterations are exhausted; print-and-return None when
noRun is set; otherwise execute, returning the (optionally stripped)
output, re-raising on the last attempt and sleeping and retrying
otherwise. -/
def commandRunLoop {ε : Type} (noRun strip : Bool)
    (exec : Nat → Except ε String) :
    Nat → Nat → Nat → Except ε (Option String) × Nat
  | _, 0, executed => (.ok none, executed)
  | count, r + 1, executed =>
    if noRun then (.ok none, executed)
    else
      match exec count with
      | .ok out =>
        (.ok (some (if strip then out.trim else out)), executed + 1)
      | .error e =>
        match r with
        | 0 => (.error e, executed + 1)
        | _ + 1 => commandRunLoop noRun strip exec (count + 1) r (executed + 1)

/-- Command.run: run the retry loop; a CommandError escaping the loop is
converted to the empty string when noThrow is set, and re-raised
otherwise.  The `noRun` argument is the instance flag captured from the
process-wide default (Command.noRunMode) at construction. -/
def commandRun {ε : Type} (noRun : Bool) (opts : RunOptions)
    (exec : Nat → Except ε String) : Except ε (Option String) × Nat :=
  match commandRunLoop noRun opts.strip exec 0 opts.retries 0 with
  | (.error e, n) => if opts.noThrow then (.ok (some ""), n) else (.error e, n)
  | (res, n) => (res, n)

/-- C10.  With the process-wide noRun default set, Command.run executes no
external process and returns python None — not the command output and not
the empty string — whatever the retries, noThrow and strip options and
whatever the external processes would have done. -/
theorem commandRun_noRun {ε : Type} (noRun : Bool) (opts : RunOptions)
    (exec : Nat → Except ε String) (h : noRun = true) :
    commandRun noRun opts exec = (.ok none, 0)
    ∧ (Except.ok none : Except ε (Option String)) ≠ .ok (some "") := by
  subst h
  refine ⟨?_, by simp⟩
  obtain ⟨retries, noThrow, strip⟩ := opts
  cases retries with
  | zero => cases noThrow <;> rfl
  | succ r => cases noThrow <;> rfl

/-- C10 witness: dry-run with retries 5, noThrow and strip set, over
processes that would always fail. -/
theorem commandRun_noRun_witness :
    commandRun true ⟨5, true, true⟩ (fun _ => .error "failure") = (.ok none, 0)
    ∧ (Except.ok none : Except String (Option String)) ≠ .ok (some "") :=
  commandRun_noRun true ⟨5, true, true⟩ (fun _ => .error "failure") rfl

end VDO
